import Mathlib

/-!
Verification of the CocoMelon frame-fingerprinting and tamper-detection core.

Shallow embedding of the repository's six Python programs:

* `compute_sha256` — SHA-256 over the fingerprint serialized as consecutive
  little-endian two's-complement 32-bit integers
  (`hashlib.sha256(np.array(data, dtype=np.int32).tobytes()).hexdigest()`).
* `computeGuarded` — the guarded plain-sum fingerprint extractor
  (`compute_cryptograph_for_frame` of `tampered_py.py`, `untampered.py`,
  `tamperedPNG.py`, `css_tampered_py.py`: `try/except` returning `[]`,
  component = `int(np.sum(np.mean(cell, axis=(0,1))))`).
* `computeModulo` — the unguarded modulo-conditioned extractor
  (`compute_cryptograph_for_frame` of `python_file.py`, `untamperedPNG.py`:
  no exception handler, the truncated mean-sum is further conditioned by
  divisibility tests against 3, 11 and 5). Exceptions are modelled as `none`.
* the offline batch comparator of `python_file.py`
  (`compare_cryptographs`, `compare_sha_hashes`, `is_tampered`, main flow), and
* the online capture loop of `tampered_py.py` (`record_stream` with the
  periodic tamper injection) and the `start_recording` endpoints.

Pixel means are modelled as exact rationals (`ℚ`) and Python's `int()`
truncation as `Int.floor` (all mean-sums are nonnegative); Python's
`ZeroDivisionError` / `ValueError` paths are modelled with `Option`.
-/

namespace CocoMelon

/-! ## SHA-256 over byte lists -/

/-- 32-bit rotate right of a word already reduced modulo `2^32`. -/
def rotr (n w : Nat) : Nat :=
  ((w >>> n) ||| (w <<< (32 - n))) % 4294967296

def smallSigma0 (x : Nat) : Nat := rotr 7 x ^^^ rotr 18 x ^^^ (x >>> 3)

def smallSigma1 (x : Nat) : Nat := rotr 17 x ^^^ rotr 19 x ^^^ (x >>> 10)

def bigSigma0 (x : Nat) : Nat := rotr 2 x ^^^ rotr 13 x ^^^ rotr 22 x

def bigSigma1 (x : Nat) : Nat := rotr 6 x ^^^ rotr 11 x ^^^ rotr 25 x

def chFun (e f g : Nat) : Nat := (e &&& f) ^^^ ((e ^^^ 4294967295) &&& g)

def majFun (a b c : Nat) : Nat := (a &&& b) ^^^ (a &&& c) ^^^ (b &&& c)

/-- The SHA-256 round constants (in decimal). -/
def sha256K : List Nat :=
  [1116352408, 1899447441, 3049323471, 3921009573, 961987163,
   1508970993, 2453635748, 2870763221, 3624381080, 310598401,
   607225278, 1426881987, 1925078388, 2162078206, 2614888103,
   3248222580, 3835390401, 4022224774, 264347078, 604807628,
   770255983, 1249150122, 1555081692, 1996064986, 2554220882,
   2821834349, 2952996808, 3210313671, 3336571891, 3584528711,
   113926993, 338241895, 666307205, 773529912, 1294757372,
   1396182291, 1695183700, 1986661051, 2177026350, 2456956037,
   2730485921, 2820302411, 3259730800, 3345764771, 3516065817,
   3600352804, 4094571909, 275423344, 430227734, 506948616,
   659060556, 883997877, 958139571, 1322822218, 1537002063,
   1747873779, 1955562222, 2024104815, 2227730452, 2361852424,
   2428436474, 2756734187, 3204031479, 3329325298]

/-- Big-endian 8-byte encoding of the bit length appended by SHA-256 padding. -/
def beBytes8 (n : Nat) : List Nat :=
  [n / 72057594037927936 % 256, n / 281474976710656 % 256,
   n / 1099511627776 % 256, n / 4294967296 % 256,
   n / 16777216 % 256, n / 65536 % 256, n / 256 % 256, n % 256]

/-- SHA-256 padding: append `0x80`, zero bytes, and the 64-bit message bit length. -/
def padMessage (msg : List Nat) : List Nat :=
  let L := msg.length
  let padLen := (64 + 56 - (L + 1) % 64) % 64
  msg ++ 0x80 :: (List.replicate padLen 0 ++ beBytes8 (8 * L))

/-- Split a byte list into 64-byte chunks (structural recursion on a fuel
argument so that the kernel can evaluate it). -/
def chunks64Go : Nat → List Nat → List (List Nat)
  | 0, _ => []
  | _, [] => []
  | fuel + 1, b :: rest => ((b :: rest).take 64) :: chunks64Go fuel ((b :: rest).drop 64)

/-- Split a byte list into 64-byte chunks. -/
def chunks64 (l : List Nat) : List (List Nat) := chunks64Go l.length l

/-- Parse a 64-byte block into sixteen big-endian 32-bit words. -/
def toWords (block : List Nat) : List Nat :=
  (List.range 16).map (fun i =>
    block.getD (4 * i) 0 * 16777216 + block.getD (4 * i + 1) 0 * 65536 +
    block.getD (4 * i + 2) 0 * 256 + block.getD (4 * i + 3) 0)

/-- Extend the 16-word schedule by `n` further words. -/
def extendWords : Nat → List Nat → List Nat
  | 0, w => w
  | n + 1, w =>
    let l := w.length
    let nw := (smallSigma1 (w.getD (l - 2) 0) + w.getD (l - 7) 0 +
               smallSigma0 (w.getD (l - 15) 0) + w.getD (l - 16) 0) % 4294967296
    extendWords n (w ++ [nw])

/-- The eight 32-bit words of SHA-256 working state / output. -/
structure Hash8 where
  w0 : Nat
  w1 : Nat
  w2 : Nat
  w3 : Nat
  w4 : Nat
  w5 : Nat
  w6 : Nat
  w7 : Nat
deriving DecidableEq

/-- One SHA-256 compression round. -/
def roundStep (st : Hash8) (kw : Nat × Nat) : Hash8 :=
  let t1 := (st.w7 + bigSigma1 st.w4 + chFun st.w4 st.w5 st.w6 + kw.1 + kw.2) % 4294967296
  let t2 := (bigSigma0 st.w0 + majFun st.w0 st.w1 st.w2) % 4294967296
  ⟨(t1 + t2) % 4294967296, st.w0, st.w1, st.w2,
   (st.w3 + t1) % 4294967296, st.w4, st.w5, st.w6⟩

/-- Compress one 64-byte block into the running hash state. -/
def processBlock (st : Hash8) (block : List Nat) : Hash8 :=
  let w := extendWords 48 (toWords block)
  let f := (sha256K.zip w).foldl roundStep st
  ⟨(st.w0 + f.w0) % 4294967296, (st.w1 + f.w1) % 4294967296,
   (st.w2 + f.w2) % 4294967296, (st.w3 + f.w3) % 4294967296,
   (st.w4 + f.w4) % 4294967296, (st.w5 + f.w5) % 4294967296,
   (st.w6 + f.w6) % 4294967296, (st.w7 + f.w7) % 4294967296⟩

/-- SHA-256 of a byte list, as eight 32-bit words. -/
def sha256Hash (msg : List Nat) : Hash8 :=
  (chunks64 (padMessage msg)).foldl processBlock
    ⟨1779033703, 3144134277, 1013904242, 2773480762,
     1359893119, 2600822924, 528734635, 1541459225⟩

/-- Lowercase hexadecimal digit for a nibble. -/
def hexChar (n : Nat) : Char :=
  if n < 10 then Char.ofNat (48 + n) else Char.ofNat (87 + n)

/-- Fixed-width (eight digit) lowercase hexadecimal rendering of a 32-bit word. -/
def wordHex (w : Nat) : List Char :=
  (List.range 8).map (fun i => hexChar (w / 16 ^ (7 - i) % 16))

/-- `hexdigest()`: the 64-character lowercase hexadecimal digest string. -/
def hexDigest (s : Hash8) : String :=
  ⟨wordHex s.w0 ++ wordHex s.w1 ++ wordHex s.w2 ++ wordHex s.w3 ++
   wordHex s.w4 ++ wordHex s.w5 ++ wordHex s.w6 ++ wordHex s.w7⟩

/-- `np.array(data, dtype=np.int32).tobytes()` for one integer: the four
little-endian bytes of its value reduced modulo `2^32` (two's complement). -/
def int32LE (i : Int) : List Nat :=
  let n := (i % 4294967296).toNat
  [n % 256, n / 256 % 256, n / 65536 % 256, n / 16777216 % 256]

/-- `compute_sha256(cryptograph)` of the Python sources: SHA-256 hex digest of
the fingerprint serialized as consecutive 32-bit signed little-endian integers. -/
def compute_sha256 (data : List Int) : String :=
  hexDigest (sha256Hash ((data.map int32LE).flatten))

/-! ## Frames and the two fingerprint extractors -/

/-- A numpy pixel array as the extractors see it: its `shape` (a list of
dimension sizes, arbitrary rank) and a pixel accessor (row, column, channel —
only meaningful inside the bounds of a rank-3 shape). Pixel values are
nonnegative (`uint8` in the sources). -/
structure Frame where
  shape : List Nat
  pix : Nat → Nat → Nat → Nat

instance : Inhabited Frame := ⟨⟨[], fun _ _ _ => 0⟩⟩

/-- The per-cell value shared by every extractor variant:
`int(np.sum(np.mean(grid, axis=(0, 1))))` for the cell at grid row `gy`,
grid column `gx`, where `grid = frame[gy*gh:(gy+1)*gh, gx*gw:(gx+1)*gw]`,
`gh = h / g`, `gw = w / g`.  Per-channel means are exact rationals and the
final `int()` truncation is `Int.floor` (the mean-sum is nonnegative). -/
def cellValueCore (h w c : Nat) (pix : Nat → Nat → Nat → Nat) (g gy gx : Nat) : Int :=
  let gh := h / g
  let gw := w / g
  ⌊((List.range c).map (fun ch =>
      (((List.range gh).map (fun y =>
        ((List.range gw).map (fun x =>
          ((pix (gy * gh + y) (gx * gw + x) ch : ℚ)))).sum)).sum) / ((gh * gw : Nat) : ℚ))).sum⌋

/-- The condition under which the Python cell computation raises
(`ZeroDivisionError` from `h // 0`, or `ValueError` from `int(nan)` when a
grid cell is empty while at least one channel exists). -/
def cellRaises (h w c g : Nat) : Prop := g = 0 ∨ ((h / g) * (w / g) = 0 ∧ 0 < c)

instance (h w c g : Nat) : Decidable (cellRaises h w c g) := by
  unfold cellRaises; infer_instance

/-- `compute_cryptograph_for_frame` of `tampered_py.py` / `untampered.py` /
`tamperedPNG.py` / `css_tampered_py.py`: the guarded plain-sum extractor.
The cell values are emitted by the row-outer (`gy`), column-inner (`gx`)
loops; any exception is caught and the empty list returned. -/
def computeGuarded (fr : Frame) (g : Nat) : List Int :=
  match fr.shape with
  | [h, w, c] =>
    if cellRaises h w c g then []
    else (List.range g).flatMap (fun gy =>
           (List.range g).map (fun gx => cellValueCore h w c fr.pix g gy gx))
  | _ => []

/-- The modulo conditioning applied by `python_file.py` / `untamperedPNG.py`:
`cryptograph = 0; if value % 3 == 0 and value % 11 == 0: cryptograph += value;
if value % 5 == 0: cryptograph *= 5`. -/
def cond33 (v : Int) : Int :=
  let cg := if v % 3 = 0 ∧ v % 11 = 0 then 0 + v else 0
  if v % 5 = 0 then cg * 5 else cg

/-- `compute_cryptograph_for_frame` of `python_file.py` / `untamperedPNG.py`:
the unguarded modulo-conditioned extractor. There is no exception handler, so
a malformed frame propagates the exception — modelled as `none`. -/
def computeModulo (fr : Frame) (g : Nat) : Option (List Int) :=
  match fr.shape with
  | [h, w, c] =>
    if cellRaises h w c g then none
    else some ((List.range g).flatMap (fun gy =>
           (List.range g).map (fun gx => cond33 (cellValueCore h w c fr.pix g gy gx))))
  | _ => none

/-- Modelled from the spec (§4.1): the cell component the specification
prescribes — partition by integer division of height and width, take the mean
pixel value per channel over the cell, sum the per-channel means, truncate to
a signed integer. -/
def specCellComponent (h w c : Nat) (pix : Nat → Nat → Nat → Nat) (g gy gx : Nat) : Int :=
  let gh := h / g
  let gw := w / g
  ⌊∑ ch ∈ Finset.range c,
     (∑ y ∈ Finset.range gh, ∑ x ∈ Finset.range gw,
        ((pix (gy * gh + y) (gx * gw + x) ch : ℚ))) / ((gh * gw : Nat) : ℚ)⌋

/-! ## The offline batch comparator (`python_file.py`)

Ledgers are the dictionaries built by `analyze_video`: `frame_{i} ↦`
fingerprint (and, derived from it, `frame_{i} ↦` SHA digest).  The string key
`"frame_i"` is in bijection with `i`, so keys are modelled as `Nat`. -/

def keysOf {α : Type} (m : List (Nat × α)) : List Nat := m.map Prod.fst

/-- `set(original.keys()).intersection(set(tampered.keys()))` — the matched
frame ids (listed in first-ledger order; Python's set iteration order is
unspecified, and only membership and cardinality are ever used). -/
def matchedFrames {α β : Type} (a : List (Nat × α)) (b : List (Nat × β)) : List Nat :=
  (keysOf a).filter (fun k => (keysOf b).contains k)

def lookupFp (m : List (Nat × List Int)) (k : Nat) : List Int :=
  (m.lookup k).getD []

/-- `compare_cryptographs(original, tampered, tolerance)`: for each matched
frame, the per-cell absolute fingerprint differences are computed and the
frame is reported (with its count of exceeding cells) iff some cell's
difference strictly exceeds the tolerance. -/
def compare_cryptographs (original tampered : List (Nat × List Int)) (tolerance : Int) :
    List (Nat × Nat) :=
  (matchedFrames original tampered).filterMap (fun k =>
    let diffs := List.zipWith (fun a b => |a - b|) (lookupFp original k) (lookupFp tampered k)
    let numDiffs := diffs.countP (fun d => decide (tolerance < d))
    if 0 < numDiffs then some (k, numDiffs) else none)

/-- `compare_sha_hashes(original_sha, tampered_sha)`: the matched frame ids
whose digests differ. -/
def compare_sha_hashes (originalSha tamperedSha : List (Nat × String)) : List Nat :=
  (matchedFrames originalSha tamperedSha).filter
    (fun k => decide (((originalSha.lookup k).getD "") ≠ ((tamperedSha.lookup k).getD "")))

/-- `is_tampered(differences, total_frames, threshold_ratio=0.1)`:
`len(differences) / total_frames > threshold_ratio`.  `total_frames = 0`
raises `ZeroDivisionError`, modelled as `none`. -/
def is_tampered (differences : List (Nat × Nat)) (totalFrames : Nat) (thresholdRatio : ℚ) :
    Option Bool :=
  if totalFrames = 0 then none
  else some (decide (((differences.length : ℚ) / (totalFrames : ℚ)) > thresholdRatio))

/-- The per-frame SHA map `analyze_video` derives from a fingerprint ledger. -/
def shaMap (m : List (Nat × List Int)) : List (Nat × String) :=
  m.map (fun p => (p.1, compute_sha256 p.2))

inductive Verdict where
  | AUTHENTIC : Verdict
  | TAMPERED : Verdict
deriving DecidableEq

/-- The main execution of `python_file.py` after both ledgers are built:
`common_frame_count = min(len(original), len(tampered))`, cryptograph
comparison with `tolerance=10`, SHA comparison, and the final verdict
`TAMPERED` iff `is_tampered(differences, common_frame_count)` (default
`threshold_ratio=0.1`) or some SHA mismatch exists.  A `ZeroDivisionError`
inside `is_tampered` aborts the program before any verdict (`none`). -/
def mainVerdict (original tampered : List (Nat × List Int)) : Option Verdict :=
  let differences := compare_cryptographs original tampered 10
  let hashDifferences := compare_sha_hashes (shaMap original) (shaMap tampered)
  match is_tampered differences (min original.length tampered.length) (1 / 10 : ℚ) with
  | none => none
  | some b =>
    some (if b || !hashDifferences.isEmpty then Verdict.TAMPERED else Verdict.AUTHENTIC)

/-! ## The online capture loop (`record_stream` of `tampered_py.py`,
`css_tampered_py.py`)

Each loop iteration annotates the captured frame with the timestamp
identically for the input and output copies (modelled: the annotated frame is
the loop's input), optionally tampers the output copy, computes both
fingerprints and digests, stores both under the current `frame_id` by dict
assignment, and appends `frame_id` to `tampered_frames` iff the digests
differ. -/

/-- Python dict assignment `log[k] = v`: replace the value when the key is
present, otherwise append the new binding. -/
def dictInsert {α : Type} (log : List (Nat × α)) (k : Nat) (v : α) : List (Nat × α) :=
  if (log.map Prod.fst).contains k then
    log.map (fun p => if p.1 = k then (k, v) else p)
  else log ++ [(k, v)]

/-- The tamper injection of `record_stream`: every `TAMPER_EVERY_N_FRAMES = 5`
frames, skipping frame 0, apply `tamper_patterns[frame_id % 2]` (the two
patterns `subtle_pixel_shift` and `lsb_tampering` are kept abstract as `p0`,
`p1`; they only matter through the fingerprints of their results). -/
def outFrame (p0 p1 : Frame → Nat → Frame) (fid : Nat) (f : Frame) : Frame :=
  if fid % 5 = 0 ∧ 0 < fid then (if fid % 2 = 0 then p0 else p1) f fid else f

structure RecState where
  inputLog : List (Nat × String)
  outputLog : List (Nat × String)
  tampered : List Nat
  frameId : Nat

/-- One iteration of the `record_stream` while-loop of `tampered_py.py`. -/
def recordFrame (p0 p1 : Frame → Nat → Frame) (st : RecState) (f : Frame) : RecState :=
  let fid := st.frameId
  let inputSha := compute_sha256 (computeGuarded f 3)
  let outputSha := compute_sha256 (computeGuarded (outFrame p0 p1 fid f) 3)
  { inputLog := dictInsert st.inputLog fid inputSha
    outputLog := dictInsert st.outputLog fid outputSha
    tampered := if inputSha ≠ outputSha then st.tampered ++ [fid] else st.tampered
    frameId := fid + 1 }

/-- `record_stream` over a finite captured frame sequence: logs reset, frame
counter reset, then the per-frame loop. -/
def record_stream (p0 p1 : Frame → Nat → Frame) (frames : List Frame) : RecState :=
  frames.foldl (recordFrame p0 p1) ⟨[], [], [], 0⟩

/-- The input digest recomputed for frame `fid` of a captured sequence. -/
def inputShaAt (frames : List Frame) (fid : Nat) : String :=
  compute_sha256 (computeGuarded (frames.getD fid default) 3)

/-- The output digest recomputed for frame `fid` of a captured sequence. -/
def outputShaAt (p0 p1 : Frame → Nat → Frame) (frames : List Frame) (fid : Nat) : String :=
  compute_sha256 (computeGuarded (outFrame p0 p1 fid (frames.getD fid default)) 3)

/-! ## The `start_recording` endpoints -/

structure ServerState where
  isRecording : Bool
  inputLog : List (Nat × String)
  outputLog : List (Nat × String)
  tampered : List Nat
  frameId : Nat
  duration : Int
deriving DecidableEq

structure StartResponse where
  status : Nat
  spawned : Bool
deriving DecidableEq

/-- `int(request.form.get('duration', DEFAULT_DURATION))` with the `≤ 0` and
`ValueError` fallbacks of `untampered.py` (`none` models an absent or
non-integer form field). -/
def parseDuration (form : Option Int) : Int :=
  match form with
  | some v => if v ≤ 0 then 30 else v
  | none => 30

/-- `start_recording` of `untampered.py` / `css_tampered_py.py`: parse the
duration, then spawn the producer thread only when no recording is active
(HTTP 200), otherwise report HTTP 400 without spawning. -/
def start_recording_untampered (form : Option Int) (st : ServerState) :
    StartResponse × ServerState :=
  let st1 := { st with duration := parseDuration form }
  if st1.isRecording = false then ({ status := 200, spawned := true }, st1)
  else ({ status := 400, spawned := false }, st1)

/-- `start_recording` of `tampered_py.py`: unconditionally spawn a new
producer thread and report HTTP 200 — there is no `is_recording` guard. -/
def start_recording_tampered (st : ServerState) : StartResponse × ServerState :=
  ({ status := 200, spawned := true }, st)

/-! ## Helper lemmas -/

lemma list_sum_range {M : Type} [AddCommMonoid M] (n : Nat) (f : Nat → M) :
    ((List.range n).map f).sum = ∑ i ∈ Finset.range n, f i := by
  induction n with
  | zero => simp
  | succ n ih => rw [List.range_succ, Finset.sum_range_succ]; simp [ih]

/-- The total pixel sum of one grid cell across all channels (an executable
`Nat` computation used to evaluate `cellValueCore`). -/
def cellSumNat (h w c : Nat) (pix : Nat → Nat → Nat → Nat) (g gy gx : Nat) : Nat :=
  ((List.range c).map (fun ch =>
    ((List.range (h / g)).map (fun y =>
      ((List.range (w / g)).map (fun x =>
        pix (gy * (h / g) + y) (gx * (w / g) + x) ch)).sum)).sum)).sum

/-- The floor of the sum of per-channel rational means is the integer
division of the cell's total pixel sum by the cell size.  This turns the
rational `cellValueCore` into an executable `Nat` computation. -/
lemma cellValueCore_eval (h w c : Nat) (pix : Nat → Nat → Nat → Nat) (g gy gx : Nat) :
    cellValueCore h w c pix g gy gx =
      ((cellSumNat h w c pix g gy gx / ((h / g) * (w / g)) : Nat) : Int) := by
  unfold cellValueCore cellSumNat
  simp only [list_sum_range, ← Finset.sum_div]
  rw [show (∑ ch ∈ Finset.range c, ∑ y ∈ Finset.range (h / g), ∑ x ∈ Finset.range (w / g),
        ((pix (gy * (h / g) + y) (gx * (w / g) + x) ch : ℚ))) =
      ((∑ ch ∈ Finset.range c, ∑ y ∈ Finset.range (h / g), ∑ x ∈ Finset.range (w / g),
        pix (gy * (h / g) + y) (gx * (w / g) + x) ch : Nat) : ℚ) by push_cast; rfl]
  exact Rat.floor_natCast_div_natCast _ _

/-- Executable form of the guarded extractor. -/
lemma computeGuarded_eval (h w c : Nat) (pix : Nat → Nat → Nat → Nat) (g : Nat) :
    computeGuarded ⟨[h, w, c], pix⟩ g =
      if cellRaises h w c g then []
      else (List.range g).flatMap (fun gy =>
        (List.range g).map (fun gx =>
          ((cellSumNat h w c pix g gy gx / ((h / g) * (w / g)) : Nat) : Int))) := by
  simp only [computeGuarded, cellValueCore_eval]

/-- Executable form of the modulo-conditioned extractor. -/
lemma computeModulo_eval (h w c : Nat) (pix : Nat → Nat → Nat → Nat) (g : Nat) :
    computeModulo ⟨[h, w, c], pix⟩ g =
      if cellRaises h w c g then none
      else some ((List.range g).flatMap (fun gy =>
        (List.range g).map (fun gx =>
          cond33 ((cellSumNat h w c pix g gy gx / ((h / g) * (w / g)) : Nat) : Int)))) := by
  simp only [computeModulo, cellValueCore_eval]

/-- The code's per-cell value is exactly the component the spec prescribes. -/
lemma cellValueCore_eq_spec (h w c : Nat) (pix : Nat → Nat → Nat → Nat) (g gy gx : Nat) :
    cellValueCore h w c pix g gy gx = specCellComponent h w c pix g gy gx := by
  unfold cellValueCore specCellComponent
  simp only [list_sum_range]

lemma length_grid {α : Type} (g : Nat) (F : Nat → Nat → α) :
    ((List.range g).flatMap (fun gy => (List.range g).map (F gy))).length = g * g := by
  rw [List.length_flatMap]
  simp [Function.comp_def]

lemma getElem?_flatMap_const {α β : Type} (f : β → List α) (n : Nat)
    (hf : ∀ b, (f b).length = n) :
    ∀ (l : List β) (i j : Nat), j < n →
      (l.flatMap f)[i * n + j]? = (l[i]?.bind fun b => (f b)[j]?) := by
  intro l
  induction l with
  | nil => intro i j hj; simp
  | cons b t ih =>
    intro i j hj
    rw [List.flatMap_cons]
    cases i with
    | zero =>
      have hjb : j < (f b).length := by rw [hf b]; exact hj
      rw [Nat.zero_mul, Nat.zero_add, List.getElem?_append, if_pos hjb]
      simp
    | succ i =>
      have hge : ¬ ((i + 1) * n + j < (f b).length) := by rw [hf b, Nat.succ_mul]; omega
      rw [List.getElem?_append, if_neg hge]
      have harith : (i + 1) * n + j - (f b).length = i * n + j := by
        rw [hf b, Nat.succ_mul]; omega
      rw [harith, ih i j hj]
      simp

lemma getElem?_grid {α : Type} (g gy gx : Nat) (F : Nat → Nat → α) (hy : gy < g) (hx : gx < g) :
    ((List.range g).flatMap (fun a => (List.range g).map (F a)))[gy * g + gx]? = some (F gy gx) := by
  rw [getElem?_flatMap_const _ g (fun b => by simp) _ gy gx hx]
  simp [List.getElem?_range hy, List.getElem?_range hx]

lemma cellValueCore_zero_channels (h w : Nat) (pix : Nat → Nat → Nat → Nat) (g gy gx : Nat) :
    cellValueCore h w 0 pix g gy gx = 0 := by
  simp [cellValueCore]

lemma cond33_dvd (v : Int) : (33 : Int) ∣ cond33 v := by
  unfold cond33
  by_cases h3 : v % 3 = 0 ∧ v % 11 = 0
  · rw [if_pos h3]
    have h33 : (33 : Int) ∣ v := by omega
    split <;> [exact Dvd.dvd.mul_right (by simpa using h33) 5; simpa using h33]
  · rw [if_neg h3]
    split <;> simp

lemma cond33_eq_zero (v : Int) (hv : ¬ (33 : Int) ∣ v) : cond33 v = 0 := by
  unfold cond33
  have h3 : ¬ (v % 3 = 0 ∧ v % 11 = 0) := by
    intro hc
    exact hv (by omega)
  rw [if_neg h3]
  split <;> simp

lemma contains_eq_decide_mem {α : Type} [BEq α] [LawfulBEq α] (l : List α) (a : α) :
    l.contains a = decide (a ∈ l) :=
  List.elem_eq_mem a l

lemma matched_range_length (nA nB : Nat) :
    ((List.range nA).filter (fun k => (List.range nB).contains k)).length = min nA nB := by
  induction nA with
  | zero => simp
  | succ n ih =>
    rw [List.range_succ, List.filter_append, List.length_append, ih]
    by_cases h : n < nB
    · have hc : (List.range nB).contains n = true := by
        rw [contains_eq_decide_mem]
        simp [List.mem_range, h]
      simp only [List.filter_cons, List.filter_nil, hc]
      simp
      omega
    · have hc : (List.range nB).contains n = false := by
        rw [contains_eq_decide_mem]
        simp [List.mem_range]
        omega
      simp only [List.filter_cons, List.filter_nil, hc]
      simp
      omega

lemma keysOf_shaMap (m : List (Nat × List Int)) : keysOf (shaMap m) = keysOf m := by
  simp [keysOf, shaMap, List.map_map, Function.comp_def]

lemma verdict_ite_eq_tampered (b : Bool) :
    (if b then Verdict.TAMPERED else Verdict.AUTHENTIC) = Verdict.TAMPERED ↔ b = true := by
  cases b <;> simp

/-! ## C3 — the extractor emits, in row-major order, one component per cell
equal to the truncated sum of the cell's per-channel means -/

/-- C3 (amended): for every 3-dimensional frame whose height and width are at
least `grid_size` (so every grid cell is non-empty) and positive `grid_size`,
the plain-sum extractor emits the spec's component — the truncated sum of the
cell's per-channel mean pixel values, with no further transformation — at
row-major position `gy * g + gx`, and emits exactly one component per cell.
(The original claim fails for the modulo-conditioned extractor variants of
`python_file.py` / `untamperedPNG.py`, see the counterexample.) -/
theorem claim_C3_rowmajor_truncated_mean_sum :
    (∀ (h w c g gy gx : Nat) (pix : Nat → Nat → Nat → Nat),
       0 < g → 0 < h / g → 0 < w / g → gy < g → gx < g →
       (computeGuarded ⟨[h, w, c], pix⟩ g)[gy * g + gx]? =
         some (specCellComponent h w c pix g gy gx))
    ∧ (∀ (h w c g : Nat) (pix : Nat → Nat → Nat → Nat),
       0 < g → 0 < h / g → 0 < w / g →
       (computeGuarded ⟨[h, w, c], pix⟩ g).length = g * g) := by
  have hok : ∀ (h w c g : Nat) (pix : Nat → Nat → Nat → Nat),
      0 < g → 0 < h / g → 0 < w / g →
      computeGuarded ⟨[h, w, c], pix⟩ g =
        (List.range g).flatMap (fun gy =>
          (List.range g).map (fun gx => cellValueCore h w c pix g gy gx)) := by
    intro h w c g pix hg hh hw
    simp only [computeGuarded]
    rw [if_neg]
    unfold cellRaises
    push_neg
    constructor
    · omega
    · intro hzero
      exact absurd hzero (Nat.mul_pos hh hw).ne'
  constructor
  · intro h w c g gy gx pix hg hh hw hgy hgx
    rw [hok h w c g pix hg hh hw, getElem?_grid g gy gx _ hgy hgx, cellValueCore_eq_spec]
  · intro h w c g pix hg hh hw
    rw [hok h w c g pix hg hh hw, length_grid]

/-- C3 counterexample: the modulo-conditioned extractor of `python_file.py` /
`untamperedPNG.py` (cited by the claim) does apply a further transformation:
on a 3×3×3 frame of constant pixel value 10, every cell's truncated mean-sum
is 30, yet every emitted component is 0. -/
theorem claim_C3_counterexample :
    computeModulo ⟨[3, 3, 3], fun _ _ _ => 10⟩ 3 = some (List.replicate 9 0)
    ∧ specCellComponent 3 3 3 (fun _ _ _ => 10) 3 0 0 = 30
    ∧ (30 : Int) ≠ 0 := by
  refine ⟨?_, ?_, by decide⟩
  · rw [computeModulo_eval]; decide
  · rw [← cellValueCore_eq_spec, cellValueCore_eval]; decide

/-- Witness for C3's amended theorem at a concrete input. -/
theorem claim_C3_witness :
    (computeGuarded ⟨[3, 3, 1], fun _ _ _ => 7⟩ 3)[1 * 3 + 2]? =
      some (specCellComponent 3 3 1 (fun _ _ _ => 7) 3 1 2)
    ∧ (computeGuarded ⟨[3, 3, 1], fun _ _ _ => 7⟩ 3).length = 3 * 3 := by
  refine ⟨?_, ?_⟩
  · exact claim_C3_rowmajor_truncated_mean_sum.1 3 3 1 3 1 2 (fun _ _ _ => 7) (by decide)
      (by decide) (by decide) (by decide) (by decide)
  · exact claim_C3_rowmajor_truncated_mean_sum.2 3 3 1 3 (fun _ _ _ => 7) (by decide)
      (by decide) (by decide)

/-! ## C7 — behaviour on malformed frames -/

/-- C7 (amended): for the guarded extractor (`tampered_py.py` and kin), a
frame of wrong rank yields `[]` without an exception, as does a frame with at
least one channel whose height or width is too small for the grid (in
particular a zero-sized height or width); but a frame with zero channels
yields the all-zero length-`g²` fingerprint, not the empty sequence.  The
unguarded variants (`python_file.py`, `untamperedPNG.py`) propagate the
exception on a wrong-rank frame instead of returning `[]`. -/
theorem claim_C7_malformed_frames :
    (∀ (s : List Nat) (pix : Nat → Nat → Nat → Nat) (g : Nat), s.length ≠ 3 →
       computeGuarded ⟨s, pix⟩ g = [] ∧ computeModulo ⟨s, pix⟩ g = none)
    ∧ (∀ (h w c : Nat) (pix : Nat → Nat → Nat → Nat) (g : Nat),
       0 < c → (h / g) * (w / g) = 0 → computeGuarded ⟨[h, w, c], pix⟩ g = [])
    ∧ (∀ (h w : Nat) (pix : Nat → Nat → Nat → Nat) (g : Nat), 0 < g →
       computeGuarded ⟨[h, w, 0], pix⟩ g = List.replicate (g * g) 0) := by
  refine ⟨?_, ?_, ?_⟩
  · intro s pix g hs
    match s, hs with
    | [], _ => exact ⟨rfl, rfl⟩
    | [a], _ => exact ⟨rfl, rfl⟩
    | [a, b], _ => exact ⟨rfl, rfl⟩
    | a :: b :: c :: d :: t, _ => exact ⟨rfl, rfl⟩
    | [a, b, c], hs => exact absurd rfl hs
  · intro h w c pix g hc hz
    simp only [computeGuarded]
    rw [if_pos (show cellRaises h w c g from Or.inr ⟨hz, hc⟩)]
  · intro h w pix g hg
    simp only [computeGuarded]
    rw [if_neg (by unfold cellRaises; push_neg; exact ⟨by omega, fun h => by omega⟩)]
    rw [List.eq_replicate_iff]
    refine ⟨length_grid g _, ?_⟩
    intro b hb
    rw [List.mem_flatMap] at hb
    obtain ⟨gy, -, hb⟩ := hb
    rw [List.mem_map] at hb
    obtain ⟨gx, -, rfl⟩ := hb
    exact cellValueCore_zero_channels h w pix g gy gx

/-- C7 counterexample: a frame with a zero-sized channel dimension is
malformed, yet the guarded extractor returns nine zeros rather than the empty
sequence; and the unguarded extractor raises (is `none`) on a rank-2 frame
rather than returning the empty sequence. -/
theorem claim_C7_counterexample :
    computeGuarded ⟨[2, 2, 0], fun _ _ _ => 0⟩ 3 = List.replicate 9 0
    ∧ List.replicate 9 (0 : Int) ≠ []
    ∧ computeModulo ⟨[2, 2], fun _ _ _ => 0⟩ 3 = none := by
  refine ⟨?_, by decide, by decide⟩
  rw [computeGuarded_eval]; decide

/-- Witness for C7's amended theorem at concrete inputs. -/
theorem claim_C7_witness :
    (computeGuarded ⟨[4, 4], fun _ _ _ => 0⟩ 3 = [] ∧ computeModulo ⟨[4, 4], fun _ _ _ => 0⟩ 3 = none)
    ∧ computeGuarded ⟨[1, 5, 3], fun _ _ _ => 0⟩ 3 = []
    ∧ computeGuarded ⟨[6, 6, 0], fun _ _ _ => 0⟩ 3 = List.replicate (3 * 3) 0 :=
  ⟨claim_C7_malformed_frames.1 [4, 4] _ 3 (by decide),
   claim_C7_malformed_frames.2.1 1 5 3 _ 3 (by decide) (by decide),
   claim_C7_malformed_frames.2.2 6 6 _ 3 (by decide)⟩

/-! ## C8 — fingerprint length -/

/-- C8 (amended): the fingerprint has length exactly `g * g` whenever every
grid cell is non-empty (`h / g` and `w / g` positive) or the channel count is
zero; but for any other frame — e.g. one smaller than the grid — the guarded
extractor returns the empty list, so the length is 0, not `g * g`.  The
claim's universal statement over all frames fails (see the counterexample). -/
theorem claim_C8_fingerprint_length :
    ∀ (h w c : Nat) (pix : Nat → Nat → Nat → Nat) (g : Nat), 0 < g →
      ((0 < h / g ∧ 0 < w / g) ∨ c = 0) →
      (computeGuarded ⟨[h, w, c], pix⟩ g).length = g * g := by
  intro h w c pix g hg hok
  simp only [computeGuarded]
  rw [if_neg]
  · exact length_grid g _
  · unfold cellRaises
    push_neg
    refine ⟨by omega, ?_⟩
    intro hz
    rcases hok with ⟨hh, hw⟩ | hc
    · exact absurd hz (Nat.mul_pos hh hw).ne'
    · omega

/-- C8 counterexample: a well-formed 1×1×3 frame with the default
`grid_size = 3` yields the empty fingerprint — length 0, not `g * g = 9`. -/
theorem claim_C8_counterexample :
    (computeGuarded ⟨[1, 1, 3], fun _ _ _ => 0⟩ 3).length = 0 ∧ (0 : Nat) ≠ 3 * 3 := by
  refine ⟨?_, by decide⟩
  rw [computeGuarded_eval]; decide

/-- Witness for C8's amended theorem at a concrete input. -/
theorem claim_C8_witness : (computeGuarded ⟨[7, 5, 3], fun _ _ _ => 9⟩ 3).length = 3 * 3 := by
  exact claim_C8_fingerprint_length 7 5 3 (fun _ _ _ => 9) 3 (by decide) (by decide)

/-! ## C10 — the modulo-conditioned fingerprint is divisible by 33 -/

/-- C10: every component of every fingerprint returned by the
modulo-conditioned extractor (`python_file.py` / `untamperedPNG.py`) is
divisible by 33, and a frame all of whose cells' truncated mean-sums are
non-multiples of 33 fingerprints to the all-zero vector. -/
theorem claim_C10_divisible_by_33 :
    ∀ (h w c g : Nat) (pix : Nat → Nat → Nat → Nat) (l : List Int),
      computeModulo ⟨[h, w, c], pix⟩ g = some l →
      (∀ v ∈ l, (33 : Int) ∣ v)
      ∧ ((∀ gy < g, ∀ gx < g, ¬ (33 : Int) ∣ cellValueCore h w c pix g gy gx) →
          l = List.replicate (g * g) 0) := by
  intro h w c g pix l hl
  unfold computeModulo at hl
  rw [apply_ite (fun o : Option (List Int) => o = some l)] at hl
  split at hl
  · exact absurd hl (by simp)
  · rw [Option.some_inj] at hl
    subst hl
    constructor
    · intro v hv
      rw [List.mem_flatMap] at hv
      obtain ⟨gy, -, hv⟩ := hv
      rw [List.mem_map] at hv
      obtain ⟨gx, -, rfl⟩ := hv
      exact cond33_dvd _
    · intro hnd
      rw [List.eq_replicate_iff]
      refine ⟨length_grid g _, ?_⟩
      intro b hb
      rw [List.mem_flatMap] at hb
      obtain ⟨gy, hgy, hb⟩ := hb
      rw [List.mem_map] at hb
      obtain ⟨gx, hgx, rfl⟩ := hb
      rw [List.mem_range] at hgy hgx
      exact cond33_eq_zero _ (hnd gy hgy gx hgx)

/-- Witness for C10 at a concrete input: a 3×3×1 frame of constant pixel 1
has every cell value 1 (not a multiple of 33), so its fingerprint is all
zeros — and, vacuously checkable, every component is divisible by 33. -/
theorem claim_C10_witness :
    (∀ v ∈ (List.replicate 9 (0 : Int)), (33 : Int) ∣ v)
    ∧ List.replicate 9 (0 : Int) = List.replicate (3 * 3) 0 :=
  ⟨(claim_C10_divisible_by_33 3 3 1 3 (fun _ _ _ => 1) (List.replicate 9 0)
      (by rw [computeModulo_eval]; decide)).1,
   (claim_C10_divisible_by_33 3 3 1 3 (fun _ _ _ => 1) (List.replicate 9 0)
      (by rw [computeModulo_eval]; decide)).2
     (by simp only [cellValueCore_eval]; decide)⟩

/-! ## C1 — offline batch comparison with default tolerance and threshold -/

/-- Frame-0 ledger of the concrete scenario: fingerprint `[30] * 9`. -/
def ledgerA0 : List (Nat × List Int) := [(0, List.replicate 9 30)]

/-- Frame-0 ledger of the concrete scenario: fingerprint `[31] + [30] * 8`
(one cell off by exactly 1). -/
def ledgerB0 : List (Nat × List Int) := [(0, 31 :: List.replicate 8 30)]

/-- C1: for ledgers as produced by `analyze_video` (frame ids `0 .. n-1`, so
the matched-frame count equals `common_frame_count = min` of the lengths), a
matched frame is counted as differing exactly when some cell's absolute
fingerprint difference exceeds the tolerance 10, and the verdict is
`TAMPERED` iff `differing_frame_count / matched_frame_count > 0.1` or some
matched frame's digests mismatch.  In the concrete scenario — frame-0
fingerprints differing by exactly 1 in one cell — no frame is counted as
differing, frame 0 is a digest mismatch, and the verdict is `TAMPERED`
solely because of the digest mismatch. -/
theorem claim_C1_offline_verdict :
    (∀ (A B : List (Nat × List Int)),
       keysOf A = List.range A.length →
       keysOf B = List.range B.length →
       0 < min A.length B.length →
       (∀ k ∈ matchedFrames A B, (lookupFp A k).length = (lookupFp B k).length) →
       (∀ k ∈ matchedFrames A B,
          (k ∈ (compare_cryptographs A B 10).map Prod.fst ↔
            ∃ d ∈ List.zipWith (fun a b => |a - b|) (lookupFp A k) (lookupFp B k),
              (10 : Int) < d))
       ∧ (mainVerdict A B = some Verdict.TAMPERED ↔
            (((compare_cryptographs A B 10).length : ℚ) /
               ((matchedFrames A B).length : ℚ) > 1 / 10
             ∨ compare_sha_hashes (shaMap A) (shaMap B) ≠ [])))
    ∧ (compare_cryptographs ledgerA0 ledgerB0 10 = []
       ∧ compare_sha_hashes (shaMap ledgerA0) (shaMap ledgerB0) = [0]
       ∧ mainVerdict ledgerA0 ledgerB0 = some Verdict.TAMPERED) := by
  constructor
  · intro A B hA hB hmin hlen
    constructor
    · intro k hk
      have hiff : (∃ d ∈ List.zipWith (fun a b => |a - b|) (lookupFp A k) (lookupFp B k),
            (10 : Int) < d) ↔
          0 < (List.zipWith (fun a b => |a - b|) (lookupFp A k) (lookupFp B k)).countP
            (fun d => decide ((10 : Int) < d)) := by
        rw [List.countP_pos_iff]
        simp
      rw [hiff]
      simp only [compare_cryptographs, List.map_filterMap, List.mem_filterMap]
      constructor
      · rintro ⟨a, ha, hpa⟩
        split at hpa
        next hpos =>
          simp only [Option.map_some', Option.some_inj] at hpa
          subst hpa
          exact hpos
        next => exact absurd hpa (by simp)
      · intro hpos
        refine ⟨k, hk, ?_⟩
        rw [if_pos hpos]
        rfl
    · have hmm : (matchedFrames A B).length = min A.length B.length := by
        unfold matchedFrames
        unfold keysOf at hA hB
        unfold keysOf
        rw [hA, hB]
        exact matched_range_length _ _
      simp only [mainVerdict, is_tampered]
      rw [if_neg (by omega : ¬ (min A.length B.length = 0))]
      simp only [Option.some.injEq]
      rw [verdict_ite_eq_tampered]
      rw [← hmm]
      simp [Bool.or_eq_true, decide_eq_true_iff, Bool.not_eq_true', List.isEmpty_eq_false]
  · refine ⟨by decide, by decide, ?_⟩
    simp only [mainVerdict, is_tampered]
    rw [show compare_cryptographs ledgerA0 ledgerB0 10 = [] from by decide]
    rw [show compare_sha_hashes (shaMap ledgerA0) (shaMap ledgerB0) = [0] from by decide]
    have hr : ¬ ((([] : List (Nat × Nat)).length : ℚ) /
        ((min ledgerA0.length ledgerB0.length : Nat) : ℚ) > 1 / 10) := by
      norm_num
    rw [if_neg (by simp [ledgerA0, ledgerB0]), decide_eq_false hr]
    simp

/-- Witness for C1's general part, instantiated at the concrete scenario
ledgers. -/
theorem claim_C1_witness :
    mainVerdict ledgerA0 ledgerB0 = some Verdict.TAMPERED ↔
      (((compare_cryptographs ledgerA0 ledgerB0 10).length : ℚ) /
         ((matchedFrames ledgerA0 ledgerB0).length : ℚ) > 1 / 10
       ∨ compare_sha_hashes (shaMap ledgerA0) (shaMap ledgerB0) ≠ []) := by
  exact (claim_C1_offline_verdict.1 ledgerA0 ledgerB0 (by decide) (by decide) (by decide)
    (by decide)).2

/-! ## C4 — offline compare on disjoint ledgers -/

/-- C4 (amended): the offline comparator never raises a
`NoCommonFramesError` — no such error exists in the code.  On two non-empty
ledgers with disjoint frame-id sets it silently produces the default
`AUTHENTIC` verdict (no differing frames, no digest mismatches); and when a
ledger is empty the verdict computation performs the very division by zero
the claim says is prevented (`ZeroDivisionError`, modelled as `none`). -/
theorem claim_C4_disjoint_ledgers :
    (∀ (A B : List (Nat × List Int)),
       (∀ k ∈ keysOf A, k ∉ keysOf B) → A ≠ [] → B ≠ [] →
       mainVerdict A B = some Verdict.AUTHENTIC)
    ∧ (∀ B : List (Nat × List Int), mainVerdict [] B = none) := by
  constructor
  · intro A B hdisj hA hB
    have hmatched : matchedFrames A B = [] := by
      unfold matchedFrames
      rw [List.filter_eq_nil_iff]
      intro k hk
      rw [contains_eq_decide_mem]
      simp [hdisj k hk]
    have hmatchedSha : matchedFrames (shaMap A) (shaMap B) = [] := by
      unfold matchedFrames
      rw [keysOf_shaMap, keysOf_shaMap, List.filter_eq_nil_iff]
      intro k hk
      rw [contains_eq_decide_mem]
      simp [hdisj k hk]
    have hdiff : compare_cryptographs A B 10 = [] := by
      unfold compare_cryptographs
      rw [hmatched]
      rfl
    have hsha : compare_sha_hashes (shaMap A) (shaMap B) = [] := by
      unfold compare_sha_hashes
      rw [hmatchedSha]
      rfl
    simp only [mainVerdict, is_tampered, hdiff, hsha]
    have hminpos : ¬ (min A.length B.length = 0) := by
      have h1 := List.length_pos.mpr hA
      have h2 := List.length_pos.mpr hB
      omega
    rw [if_neg hminpos]
    have hr : ¬ ((([] : List (Nat × Nat)).length : ℚ) /
        ((min A.length B.length : Nat) : ℚ) > 1 / 10) := by norm_num
    rw [decide_eq_false hr]
    simp
  · intro B
    simp [mainVerdict, is_tampered]

/-- C4 counterexample: on the disjoint non-empty ledgers `{0}` and `{1}` the
offline comparison neither fails nor raises: it returns the default
`AUTHENTIC` verdict, contradicting the claim. -/
theorem claim_C4_counterexample :
    mainVerdict [(0, List.replicate 9 30)] [(1, List.replicate 9 30)] =
      some Verdict.AUTHENTIC := by
  simp only [mainVerdict, is_tampered]
  rw [show compare_cryptographs [(0, List.replicate 9 30)] [(1, List.replicate 9 30)] 10 = []
    from by decide]
  rw [show compare_sha_hashes (shaMap [(0, List.replicate 9 30)])
      (shaMap [(1, List.replicate 9 30)]) = [] from by decide]
  have hr : ¬ ((([] : List (Nat × Nat)).length : ℚ) /
      ((min ([(0, List.replicate 9 (30 : Int))].length)
            ([(1, List.replicate 9 (30 : Int))].length) : Nat) : ℚ) > 1 / 10) := by norm_num
  rw [if_neg (by simp), decide_eq_false hr]
  simp

/-- Witness for C4's amended theorem at concrete inputs. -/
theorem claim_C4_witness :
    mainVerdict [(3, List.replicate 9 30)] [(7, List.replicate 9 30)] =
      some Verdict.AUTHENTIC
    ∧ mainVerdict [] [(1, List.replicate 9 30)] = none := by
  refine ⟨?_, claim_C4_disjoint_ledgers.2 _⟩
  exact claim_C4_disjoint_ledgers.1 _ _ (by decide) (by decide) (by decide)

/-! ## C9 — the digest is total and a 64-character lowercase hex string -/

lemma hexChar_mod_mem (n : Nat) : hexChar (n % 16) ∈ "0123456789abcdef".data := by
  have hall : ∀ m, m < 16 → hexChar m ∈ "0123456789abcdef".data := by decide
  exact hall _ (Nat.mod_lt _ (by omega))

lemma wordHex_mem (w : Nat) : ∀ c ∈ wordHex w, c ∈ "0123456789abcdef".data := by
  intro c hc
  simp only [wordHex, List.mem_map, List.mem_range] at hc
  obtain ⟨i, -, rfl⟩ := hc
  exact hexChar_mod_mem _

/-- C9: `compute_sha256` is total — defined for every fingerprint, with the
empty fingerprint hashing to the SHA-256 of the empty byte string — and for
every fingerprint (serialized as consecutive fixed-width 32-bit signed
integers) the digest is a 64-character string of lowercase hexadecimal
digits. -/
theorem claim_C9_digest_total_hex :
    (∀ fp : List Int,
       (compute_sha256 fp).length = 64
       ∧ (∀ ch ∈ (compute_sha256 fp).data, ch ∈ "0123456789abcdef".data))
    ∧ compute_sha256 [] =
        "e3b0c44298fc1c149afbf4c8996fb92427ae41e4649b934ca495991b7852b855" := by
  have hlen : ∀ s : Hash8, (hexDigest s).length = 64 := by
    intro s
    simp [hexDigest, wordHex, String.length]
  have hmem : ∀ (s : Hash8) (ch : Char), ch ∈ (hexDigest s).data →
      ch ∈ "0123456789abcdef".data := by
    intro s ch hs
    rw [show (hexDigest s).data =
        wordHex s.w0 ++ (wordHex s.w1 ++ (wordHex s.w2 ++ (wordHex s.w3 ++ (wordHex s.w4 ++
          (wordHex s.w5 ++ (wordHex s.w6 ++ wordHex s.w7)))))) from rfl] at hs
    simp only [List.mem_append] at hs
    rcases hs with h | h | h | h | h | h | h | h <;> exact wordHex_mem _ _ h
  constructor
  · intro fp
    exact ⟨hlen _, fun ch hch => hmem _ ch hch⟩
  · decide

/-- Witness for C9 at concrete inputs. -/
theorem claim_C9_witness :
    (compute_sha256 []).length = 64 ∧ 'e' ∈ "0123456789abcdef".data :=
  ⟨(claim_C9_digest_total_hex.1 []).1,
   (claim_C9_digest_total_hex.1 []).2 'e' (by decide)⟩

/-! ## C5 — duplicate frame ids in the ledger -/

lemma lookup_some_mem_keys {α : Type} (k : Nat) (r : α) :
    ∀ log : List (Nat × α), log.lookup k = some r → k ∈ log.map Prod.fst := by
  intro log
  induction log with
  | nil => simp
  | cons a t ih =>
    obtain ⟨ka, b⟩ := a
    intro h
    by_cases hk : k = ka
    · simp [hk]
    · rw [List.lookup_cons] at h
      rw [show (k == ka) = false from by simp [hk]] at h
      simp only [List.map_cons, List.mem_cons]
      exact Or.inr (ih h)

lemma lookup_map_replace {α : Type} (k : Nat) (v : α) :
    ∀ log : List (Nat × α), k ∈ log.map Prod.fst →
      (log.map (fun p => if p.1 = k then (k, v) else p)).lookup k = some v := by
  intro log
  induction log with
  | nil => simp
  | cons a t ih =>
    intro hmem
    obtain ⟨ka, b⟩ := a
    by_cases hk : ka = k
    · subst hk
      simp [List.lookup_cons]
    · have hmem' : k ∈ t.map Prod.fst := by
        simp only [List.map_cons, List.mem_cons] at hmem
        rcases hmem with h | h
        · exact absurd h.symm hk
        · exact h
      rw [List.map_cons, show (if (ka, b).1 = k then (k, v) else (ka, b)) = (ka, b) from
        by rw [if_neg hk], List.lookup_cons,
        show (k == ka) = false from by simp; exact fun h => hk h.symm]
      exact ih hmem'

lemma lookup_map_replace_ne {α : Type} (k k' : Nat) (v : α) (hne : k' ≠ k) :
    ∀ log : List (Nat × α),
      (log.map (fun p => if p.1 = k then (k, v) else p)).lookup k' = log.lookup k' := by
  intro log
  induction log with
  | nil => simp
  | cons a t ih =>
    obtain ⟨ka, b⟩ := a
    by_cases hk : ka = k
    · subst hk
      rw [List.map_cons, show (if (ka, b).1 = ka then (ka, v) else (ka, b)) = (ka, v) from
        by rw [if_pos rfl], List.lookup_cons, List.lookup_cons,
        show (k' == ka) = false from by simp [hne]]
      exact ih
    · rw [List.map_cons, show (if (ka, b).1 = k then (k, v) else (ka, b)) = (ka, b) from
        by rw [if_neg hk], List.lookup_cons, List.lookup_cons]
      by_cases hka : k' = ka
      · rw [show (k' == ka) = true from by simp [hka]]
      · rw [show (k' == ka) = false from by simp [hka]]
        exact ih

/-- C5 (amended): the ledgers are plain dicts, and "append" is dict
assignment — when the frame id is already present it does not fail with any
`DuplicateFrameIdError`; it silently replaces that frame's record, leaving
every other frame's record unchanged. -/
theorem claim_C5_append_overwrites :
    ∀ (α : Type) (log : List (Nat × α)) (k : Nat) (v r : α),
      log.lookup k = some r →
      (dictInsert log k v).lookup k = some v
      ∧ (∀ k', k' ≠ k → (dictInsert log k v).lookup k' = log.lookup k') := by
  intro α log k v r hlook
  have hmem : k ∈ log.map Prod.fst := lookup_some_mem_keys k r log hlook
  have hcont : (log.map Prod.fst).contains k = true := by
    rw [contains_eq_decide_mem]
    simp [hmem]
  unfold dictInsert
  rw [if_pos hcont]
  exact ⟨lookup_map_replace k v log hmem, fun k' hk' => lookup_map_replace_ne k k' v hk' log⟩

/-- C5 counterexample: storing a record under an already-present frame id
succeeds and changes the stored record, contradicting both "fails with
`DuplicateFrameIdError`" and "leaves the existing record unchanged". -/
theorem claim_C5_counterexample :
    (dictInsert [(0, "a")] 0 "b").lookup 0 = some "b"
    ∧ (some "b" : Option String) ≠ some "a"
    ∧ dictInsert [(0, "a")] 0 "b" = [(0, "b")] := by
  refine ⟨by decide, by decide, by decide⟩

/-- Witness for C5's amended theorem at a concrete input. -/
theorem claim_C5_witness :
    (dictInsert [(0, "a")] 0 "b").lookup 0 = some "b"
    ∧ (dictInsert [(0, "a")] 0 "b").lookup 5 = ([(0, "a")] : List (Nat × String)).lookup 5 := by
  have h := claim_C5_append_overwrites String [(0, "a")] 0 "b" "a" (by decide)
  exact ⟨h.1, h.2 5 (by decide)⟩

/-! ## C6 — session exclusivity of `start_recording` -/

/-- C6 (amended): in `untampered.py` / `css_tampered_py.py`, a
`start_recording` request while a session is active reports HTTP 400, does
not spawn a second producer, and leaves the session's ledgers,
TamperedFrameSet and frame counter unchanged.  The `tampered_py.py` variant
has no such guard: it spawns a second producer unconditionally (see the
counterexample). -/
theorem claim_C6_session_exclusivity :
    ∀ (form : Option Int) (st : ServerState), st.isRecording = true →
      (start_recording_untampered form st).1 = ⟨400, false⟩
      ∧ (start_recording_untampered form st).2.inputLog = st.inputLog
      ∧ (start_recording_untampered form st).2.outputLog = st.outputLog
      ∧ (start_recording_untampered form st).2.tampered = st.tampered
      ∧ (start_recording_untampered form st).2.frameId = st.frameId := by
  intro form st h
  simp only [start_recording_untampered]
  rw [if_neg (by simp [h])]
  exact ⟨rfl, rfl, rfl, rfl, rfl⟩

/-- C6 counterexample: in `tampered_py.py`, a start request made while a
session is active (`isRecording = true`) still reports HTTP 200 and spawns a
second producer, contradicting the claim. -/
theorem claim_C6_counterexample :
    (start_recording_tampered ⟨true, [(0, "s")], [(0, "s")], [3], 7, 30⟩).1 = ⟨200, true⟩
    ∧ (⟨true, [(0, "s")], [(0, "s")], [3], 7, 30⟩ : ServerState).isRecording = true :=
  ⟨rfl, rfl⟩

/-- Witness for C6's amended theorem at a concrete input. -/
theorem claim_C6_witness :
    (start_recording_untampered (some 10) ⟨true, [(0, "s")], [], [3], 7, 30⟩).1 = ⟨400, false⟩
    ∧ (start_recording_untampered (some 10) ⟨true, [(0, "s")], [], [3], 7, 30⟩).2.inputLog =
        (⟨true, [(0, "s")], [], [3], 7, 30⟩ : ServerState).inputLog
    ∧ (start_recording_untampered (some 10) ⟨true, [(0, "s")], [], [3], 7, 30⟩).2.outputLog =
        (⟨true, [(0, "s")], [], [3], 7, 30⟩ : ServerState).outputLog
    ∧ (start_recording_untampered (some 10) ⟨true, [(0, "s")], [], [3], 7, 30⟩).2.tampered =
        (⟨true, [(0, "s")], [], [3], 7, 30⟩ : ServerState).tampered
    ∧ (start_recording_untampered (some 10) ⟨true, [(0, "s")], [], [3], 7, 30⟩).2.frameId =
        (⟨true, [(0, "s")], [], [3], 7, 30⟩ : ServerState).frameId :=
  claim_C6_session_exclusivity (some 10) ⟨true, [(0, "s")], [], [3], 7, 30⟩ rfl

/-! ## C2 — the online divergence detector -/

/-- The tampered-frame list accumulated by the `record_stream` loop, for any
starting state: frame `j` of the remaining sequence is appended exactly when
its input digest and output digest differ. -/
lemma record_tampered_spec (p0 p1 : Frame → Nat → Frame) :
    ∀ (frames : List Frame) (st : RecState),
      (frames.foldl (recordFrame p0 p1) st).tampered
        = st.tampered ++ (List.range frames.length).filterMap (fun j =>
            if compute_sha256 (computeGuarded (frames.getD j default) 3)
               ≠ compute_sha256 (computeGuarded
                   (outFrame p0 p1 (st.frameId + j) (frames.getD j default)) 3)
            then some (st.frameId + j) else none) := by
  intro frames
  induction frames with
  | nil => intro st; simp
  | cons f t ih =>
    intro st
    rw [List.foldl_cons, ih]
    rw [List.length_cons, List.range_succ_eq_map, List.filterMap_cons, List.filterMap_map]
    have hframe : (recordFrame p0 p1 st f).frameId = st.frameId + 1 := rfl
    have htamp : (recordFrame p0 p1 st f).tampered =
        if compute_sha256 (computeGuarded f 3)
           ≠ compute_sha256 (computeGuarded (outFrame p0 p1 st.frameId f) 3)
        then st.tampered ++ [st.frameId] else st.tampered := rfl
    rw [hframe, htamp]
    have hfun : ((fun j =>
        if compute_sha256 (computeGuarded ((f :: t).getD j default) 3)
           ≠ compute_sha256 (computeGuarded
               (outFrame p0 p1 (st.frameId + j) ((f :: t).getD j default)) 3)
        then some (st.frameId + j) else none) ∘ Nat.succ) = (fun j =>
        if compute_sha256 (computeGuarded (t.getD j default) 3)
           ≠ compute_sha256 (computeGuarded
               (outFrame p0 p1 (st.frameId + 1 + j) (t.getD j default)) 3)
        then some (st.frameId + 1 + j) else none) := by
      funext j
      simp only [Function.comp_apply, List.getD_cons_succ]
      rw [show st.frameId + (j + 1) = st.frameId + 1 + j from by omega]
    rw [hfun]
    by_cases hc : compute_sha256 (computeGuarded f 3)
        ≠ compute_sha256 (computeGuarded (outFrame p0 p1 st.frameId f) 3)
    · rw [if_pos hc]
      rw [show (if compute_sha256 (computeGuarded ((f :: t).getD 0 default) 3)
           ≠ compute_sha256 (computeGuarded
               (outFrame p0 p1 (st.frameId + 0) ((f :: t).getD 0 default)) 3)
          then some (st.frameId + 0) else none) = some st.frameId from by
        simp only [List.getD_cons_zero, Nat.add_zero]
        rw [if_pos hc]]
      simp
    · rw [if_neg hc]
      rw [show (if compute_sha256 (computeGuarded ((f :: t).getD 0 default) 3)
           ≠ compute_sha256 (computeGuarded
               (outFrame p0 p1 (st.frameId + 0) ((f :: t).getD 0 default)) 3)
          then some (st.frameId + 0) else none) = none from by
        simp only [List.getD_cons_zero, Nat.add_zero]
        rw [if_neg hc]]

/-- C2: during one capture pass of `record_stream`, a frame id is recorded in
the tampered-frame list iff the input digest and the output digest computed
for that frame id differ; and for a 20-frame session with the default
tamper-injection predicate (every 5th frame, skipping frame 0, rotating the
two patterns), whenever the injected transforms change the digests at frames
5, 10 and 15, the tampered-frame list is exactly `[5, 10, 15]`. -/
theorem claim_C2_online_divergence :
    (∀ (p0 p1 : Frame → Nat → Frame) (frames : List Frame) (fid : Nat),
       fid ∈ (record_stream p0 p1 frames).tampered ↔
         fid < frames.length ∧ inputShaAt frames fid ≠ outputShaAt p0 p1 frames fid)
    ∧ (∀ (p0 p1 : Frame → Nat → Frame)
         (f0 f1 f2 f3 f4 f5 f6 f7 f8 f9 f10 f11 f12 f13 f14 f15 f16 f17 f18 f19 : Frame),
       compute_sha256 (computeGuarded f5 3) ≠ compute_sha256 (computeGuarded (p1 f5 5) 3) →
       compute_sha256 (computeGuarded f10 3) ≠ compute_sha256 (computeGuarded (p0 f10 10) 3) →
       compute_sha256 (computeGuarded f15 3) ≠ compute_sha256 (computeGuarded (p1 f15 15) 3) →
       (record_stream p0 p1 [f0, f1, f2, f3, f4, f5, f6, f7, f8, f9, f10, f11, f12, f13,
          f14, f15, f16, f17, f18, f19]).tampered = [5, 10, 15]) := by
  constructor
  · intro p0 p1 frames fid
    unfold record_stream
    rw [record_tampered_spec]
    simp only [List.nil_append, Nat.zero_add, List.mem_filterMap, List.mem_range]
    unfold inputShaAt outputShaAt
    constructor
    · rintro ⟨j, hj, hjf⟩
      split at hjf
      next hne =>
        rw [Option.some_inj] at hjf
        subst hjf
        exact ⟨hj, hne⟩
      next => exact absurd hjf (by simp)
    · rintro ⟨hlt, hne⟩
      exact ⟨fid, hlt, by rw [if_pos hne]⟩
  · intro p0 p1 f0 f1 f2 f3 f4 f5 f6 f7 f8 f9 f10 f11 f12 f13 f14 f15 f16 f17 f18 f19
      h5 h10 h15
    unfold record_stream
    rw [record_tampered_spec]
    rw [show List.range ([f0, f1, f2, f3, f4, f5, f6, f7, f8, f9, f10, f11, f12, f13, f14,
        f15, f16, f17, f18, f19] : List Frame).length =
      [0, 1, 2, 3, 4, 5, 6, 7, 8, 9, 10, 11, 12, 13, 14, 15, 16, 17, 18, 19] from rfl]
    simp [outFrame, h5, h10, h15]

/-- The constant capture frame of the concrete 20-frame witness session. -/
def witFrame : Frame := ⟨[3, 3, 1], fun _ _ _ => 0⟩

/-- The concrete tamper transform of the witness session: replace the frame
by a 3×3×1 frame of constant pixel 7, which changes the fingerprint and its
digest. -/
def witTamper : Frame → Nat → Frame := fun _ _ => ⟨[3, 3, 1], fun _ _ _ => 7⟩

set_option maxRecDepth 100000 in
/-- Witness for C2 at a concrete 20-frame session. -/
theorem claim_C2_witness :
    (record_stream witTamper witTamper [witFrame, witFrame, witFrame, witFrame, witFrame,
      witFrame, witFrame, witFrame, witFrame, witFrame, witFrame, witFrame, witFrame,
      witFrame, witFrame, witFrame, witFrame, witFrame, witFrame, witFrame]).tampered =
      [5, 10, 15] := by
  refine claim_C2_online_divergence.2 witTamper witTamper witFrame witFrame witFrame witFrame
    witFrame witFrame witFrame witFrame witFrame witFrame witFrame witFrame witFrame witFrame
    witFrame witFrame witFrame witFrame witFrame witFrame ?_ ?_ ?_ <;>
    · simp only [witTamper, witFrame, computeGuarded_eval]
      decide

end CocoMelon
